import Mathlib

/-!
Shallow embedding of the action preview and confirmation module
(`action-preview.js`) of the Azure Voice AI Agent repository.

JavaScript objects are modelled as association lists from string keys to
`JSValue`s; the process-wide `pendingActionsStore` map is modelled as an
explicit `Store` value threaded through every operation; `Date.now()` and
the random id suffix are passed as parameters.  Timestamps are integer
milliseconds (the source stores `new Date().toISOString()` and converts
back with `getTime()`, which round-trips the millisecond value).
-/

/-- Dynamic JavaScript values as they appear in this module's data records:
strings, numbers, booleans, `undefined`, arrays, and nested objects. -/
inductive JSValue where
  | vStr (s : String)
  | vNum (n : Int)
  | vBool (b : Bool)
  | vUndefined
  | vList (xs : List JSValue)
  | vObj (fields : List (String × JSValue))
deriving Repr

/-- A JavaScript object: an association list with string keys.  A real JS
object has unique keys; lookups below use the first occurrence. -/
abbrev Obj := List (String × JSValue)

/-- Key lookup in an association list (JS property read / `Map.get`),
`none` when the key is absent. -/
def lookupKey {α : Type} : List (String × α) → String → Option α
  | [], _ => none
  | p :: rest, k => if p.fst == k then some p.snd else lookupKey rest k

/-- The JS `in` operator / `Map.has`: is the key present? -/
def hasKey {α : Type} (l : List (String × α)) (k : String) : Bool :=
  (lookupKey l k).isSome

/-- Key assignment (`obj[k] = v` / `Map.set`): update the existing entry in
place, or append a new one. -/
def putKey {α : Type} : List (String × α) → String → α → List (String × α)
  | [], k, v => [(k, v)]
  | p :: rest, k, v => if p.fst == k then (k, v) :: rest else p :: putKey rest k v

/-- Key removal (`Map.delete`). -/
def dropKey {α : Type} (l : List (String × α)) (k : String) : List (String × α) :=
  l.filter (fun p => !(p.fst == k))

/-- `Object.keys`. -/
def keysOf {α : Type} (l : List (String × α)) : List String :=
  l.map Prod.fst

/-- JS property access on an object: `undefined` when the key is absent. -/
def getProp (o : Obj) (k : String) : JSValue :=
  (lookupKey o k).getD JSValue.vUndefined

/-- JS truthiness: `undefined`, `""`, `0` and `false` are falsy; arrays and
objects are always truthy. -/
def truthy : JSValue → Bool
  | .vStr s => !(s == "")
  | .vNum n => !(n == 0)
  | .vBool b => b
  | .vUndefined => false
  | .vList _ => true
  | .vObj _ => true

/-- The JS `a || b` operator. -/
def jsOr (a b : JSValue) : JSValue :=
  if truthy a then a else b

/-- JS string coercion as used in template literals and `Array.join`. -/
def jsToString : JSValue → String
  | .vStr s => s
  | .vNum n => toString n
  | .vBool b => if b then "true" else "false"
  | .vUndefined => "undefined"
  | .vList xs => String.intercalate "," (xs.attach.map (fun x => jsToString x.val))
  | .vObj _ => "[object Object]"
decreasing_by
  simp_wf
  have h := List.sizeOf_lt_of_mem x.property
  simp only [JSValue.vList.sizeOf_spec] at *
  omega

/-- `Object.assign(target, source)`: copy every key of `source` onto
`target`, left to right. -/
def objAssign (target source : Obj) : Obj :=
  source.foldl (fun acc p => putKey acc p.fst p.snd) target

/-- One entry of `CONFIRMATION_CONFIG`. -/
structure ActionConfig where
  title : String
  requiresConfirmation : Bool
  editableFields : List String
  displayFields : List String
deriving Repr

/-- The `CONFIRMATION_CONFIG` table: per-action-kind titles and field
allowlists, exactly as written in the source. -/
def CONFIRMATION_CONFIG (actionType : String) : Option ActionConfig :=
  if actionType == "send_email" then
    some { title := "📧 Email Preview"
           requiresConfirmation := true
           editableFields := ["recipientName", "subject", "body", "ccRecipients"]
           displayFields := ["recipientName", "subject", "body", "ccRecipients"] }
  else if actionType == "send_teams_message" then
    some { title := "💬 Teams Message Preview"
           requiresConfirmation := true
           editableFields := ["recipientName", "message"]
           displayFields := ["recipientName", "message"] }
  else if actionType == "create_calendar_event" then
    some { title := "📅 Meeting Preview"
           requiresConfirmation := true
           editableFields := ["subject", "attendeeNames", "startTime", "endTime"]
           displayFields := ["subject", "attendeeNames", "startTime", "endTime", "isTeamsMeeting"] }
  else none

/-- `filterActionData(data, fields)`: build a fresh object containing, in
allowlist order, exactly the listed fields that are present in `data`. -/
def filterActionData (data : Obj) (fields : List String) : Obj :=
  fields.foldl
    (fun filtered field =>
      if hasKey data field then putKey filtered field (getProp data field) else filtered)
    []

/-- A stored pending action: the preview fields plus `originalData` and the
`editedData` overlay (`null` until the first edit), and the optional
transition timestamps. -/
structure PendingAction where
  actionId : String
  actionType : String
  title : String
  timestamp : Int
  requiresConfirmation : Bool
  data : Obj
  editableFields : List String
  status : String
  originalData : Obj
  editedData : Option Obj
  confirmedAt : Option Int
  editedAt : Option Int
deriving Repr

/-- The process-wide `pendingActionsStore` map, keyed by action id. -/
abbrev Store := List (String × PendingAction)

/-- `generateActionId`: `action_` + timestamp + `_` + random suffix. -/
def generateActionId (nowMs : Int) (rand : String) : String :=
  "action_" ++ toString nowMs ++ "_" ++ rand

/-- `getPendingAction(actionId)`. -/
def getPendingAction (store : Store) (actionId : String) : Option PendingAction :=
  lookupKey store actionId

/-- Rendering of the email preview's `cc` line:
`xs?.length > 0 ? xs.join(', ') : 'None'`.  In the source `cc` is always an
array or absent; a truthy non-array here would throw a `TypeError`
(`join` is not a function), a case that cannot occur. -/
def renderCc (x : JSValue) : JSValue :=
  match x with
  | .vList xs =>
      if xs.length > 0 then .vStr (String.intercalate ", " (xs.map jsToString))
      else .vStr "None"
  | _ => .vStr "None"

/-- Rendering of the meeting preview's attendee line:
`xs?.join(', ') || 'No attendees'` (an empty join is falsy). -/
def renderAttendees (x : JSValue) : JSValue :=
  match x with
  | .vList xs => jsOr (.vStr (String.intercalate ", " (xs.map jsToString))) (.vStr "No attendees")
  | _ => .vStr "No attendees"

/-- The kind-specific display object built by `formatPreviewForDisplay`:
all three recognised kinds produce exactly these six properties. -/
structure DisplayPreview where
  actionId : String
  title : String
  type : String
  details : Obj
  editable : List String
  status : String
deriving Repr

/-- Result of `formatPreviewForDisplay`: a kind-specific display object, or
(in the `default` branch) the input preview returned unchanged. -/
inductive FormattedPreview where
  | formatted (p : DisplayPreview)
  | raw (p : PendingAction)
deriving Repr

/-- `formatPreviewForDisplay(preview)`: switch on the action type and build
the display object from the preview's (already filtered) `data`. -/
def formatPreviewForDisplay (preview : PendingAction) : FormattedPreview :=
  if preview.actionType == "send_email" then
    .formatted
      { actionId := preview.actionId
        title := preview.title
        type := "email"
        details :=
          [("to", jsOr (getProp preview.data "recipientName") (getProp preview.data "recipient")),
           ("subject", getProp preview.data "subject"),
           ("body", getProp preview.data "body"),
           ("cc", renderCc (jsOr (getProp preview.data "cc_recipients")
                                 (getProp preview.data "ccRecipients"))),
           ("preview", .vStr ("Email to " ++
              jsToString (jsOr (getProp preview.data "recipientName")
                               (getProp preview.data "recipient"))))]
        editable := preview.editableFields
        status := preview.status }
  else if preview.actionType == "send_teams_message" then
    .formatted
      { actionId := preview.actionId
        title := preview.title
        type := "teams"
        details :=
          [("recipient", jsOr (getProp preview.data "recipientName") (.vStr "Unknown recipient")),
           ("message", getProp preview.data "message"),
           ("preview", .vStr ("Teams message to " ++
              jsToString (jsOr (getProp preview.data "recipientName") (.vStr "Unknown"))))]
        editable := preview.editableFields
        status := preview.status }
  else if preview.actionType == "create_calendar_event" then
    .formatted
      { actionId := preview.actionId
        title := preview.title
        type := "meeting"
        details :=
          [("subject", getProp preview.data "subject"),
           ("attendees", renderAttendees (getProp preview.data "attendeeNames")),
           ("startTime", jsOr (getProp preview.data "startTime") (getProp preview.data "start")),
           ("endTime", jsOr (getProp preview.data "endTime") (getProp preview.data "end")),
           ("isTeams", jsOr (getProp preview.data "isTeamsMeeting") (.vBool false)),
           ("preview", .vStr ("Meeting: " ++ jsToString (getProp preview.data "subject")))]
        editable := preview.editableFields
        status := preview.status }
  else
    .raw preview

/-- The `PendingAction` record assembled and stored by
`createActionPreview` for a recognised action type. -/
def newPendingAction (actionType : String) (config : ActionConfig) (actionData : Obj)
    (nowMs : Int) (rand : String) : PendingAction :=
  { actionId := generateActionId nowMs rand
    actionType := actionType
    title := config.title
    timestamp := nowMs
    requiresConfirmation := config.requiresConfirmation
    data := filterActionData actionData config.displayFields
    editableFields := config.editableFields
    status := "pending"
    originalData := actionData
    editedData := none
    confirmedAt := none
    editedAt := none }

/-- `createActionPreview(actionType, actionData)`: throws on an
unrecognised action type, otherwise generates an id, stores the pending
action and returns the formatted preview.  `Date.now()` and the random id
suffix are passed in as `nowMs` and `rand`. -/
def createActionPreview (store : Store) (actionType : String) (actionData : Obj)
    (nowMs : Int) (rand : String) : Except String (FormattedPreview × Store) :=
  match CONFIRMATION_CONFIG actionType with
  | none => .error ("Unknown action type: " ++ actionType)
  | some config =>
      let stored := newPendingAction actionType config actionData nowMs rand
      .ok (formatPreviewForDisplay stored,
           putKey store (generateActionId nowMs rand) stored)

/-- `confirmAction(actionId, userConfirmation)`: returns the result object
(modelled as a JS object so that its exact key set is visible) together
with the store after the call.  `userConfirmation` defaults to `{}` at the
call sites, modelled by passing `[]`. -/
def confirmAction (store : Store) (actionId : String) (userConfirmation : Obj)
    (nowMs : Int) : Obj × Store :=
  match getPendingAction store actionId with
  | none =>
      ([("success", .vBool false),
        ("error", .vStr "Action not found or already processed")], store)
  | some action =>
      match lookupKey userConfirmation "confirmed" with
      | some (.vBool false) =>
          ([("success", .vBool true),
            ("status", .vStr "cancelled"),
            ("message", .vStr "Action cancelled by user")],
           dropKey store actionId)
      | _ =>
          ([("success", .vBool true),
            ("status", .vStr "confirmed"),
            ("actionId", .vStr actionId),
            ("actionType", .vStr action.actionType),
            ("data", .vObj (action.editedData.getD action.originalData))],
           putKey store actionId
             { action with status := "confirmed", confirmedAt := some nowMs })

/-- Result of `editPendingAction`: the error object, or the success object
carrying the id, the applied changes and the updated formatted preview. -/
inductive EditResult where
  | failure (error : String)
  | success (actionId : String) (changes : Obj) (updatedPreview : FormattedPreview)
deriving Repr

/-- `editPendingAction(actionId, edits)`.  The validation loop runs over
`Object.keys(edits)` before anything is mutated; on the first key outside
`editableFields` it returns the error and leaves the record untouched.
A stored action always has a registered type, so the `TypeError` branch
(config `undefined` in the source) is unreachable. -/
def editPendingAction (store : Store) (actionId : String) (edits : Obj)
    (nowMs : Int) : EditResult × Store :=
  match getPendingAction store actionId with
  | none => (.failure "Action not found", store)
  | some action =>
      match CONFIRMATION_CONFIG action.actionType with
      | none => (.failure "TypeError: config is undefined", store)
      | some config =>
          match edits.find? (fun p => !(config.editableFields.contains p.fst)) with
          | some offending =>
              (.failure ("Field \"" ++ offending.fst ++ "\" cannot be edited for this action"),
               store)
          | none =>
              let newEdited := objAssign (action.editedData.getD action.originalData) edits
              let action' := { action with
                editedData := some newEdited
                status := "edited"
                editedAt := some nowMs }
              (.success actionId edits
                 (formatPreviewForDisplay
                   { action' with data := filterActionData newEdited config.displayFields }),
               putKey store actionId action')

/-- `getActionForExecution(actionId)`: the effective data of a confirmed
action, `null` otherwise. -/
def getActionForExecution (store : Store) (actionId : String) : Option Obj :=
  match getPendingAction store actionId with
  | none => none
  | some action =>
      if action.status == "confirmed" then some (action.editedData.getD action.originalData)
      else none

/-- `clearAction(actionId)`: delete the entry if present (a no-op
otherwise). -/
def clearAction (store : Store) (actionId : String) : Store :=
  dropKey store actionId

/-- `cleanupExpiredActions()`: delete every entry whose creation time is
more than one hour (the hard-coded `60 * 60 * 1000` ms) before `nowMs`,
and return how many were removed. -/
def cleanupExpiredActions (store : Store) (nowMs : Int) : Nat × Store :=
  let oneHourAgo := nowMs - 60 * 60 * 1000
  ((store.filter (fun p => p.snd.timestamp < oneHourAgo)).length,
   store.filter (fun p => !(p.snd.timestamp < oneHourAgo)))

/-! ### Extraction helpers for stating properties of results -/

/-- The `actionId` carried by a formatted preview. -/
def formattedActionId : FormattedPreview → String
  | .formatted p => p.actionId
  | .raw p => p.actionId

/-- Whether a formatter result is one of the kind-specific display objects
(rather than the `default` passthrough). -/
def isFormatted : FormattedPreview → Bool
  | .formatted _ => true
  | .raw _ => false

/-- The `details` object of a formatted preview (empty for the `default`
passthrough). -/
def formattedDetails : FormattedPreview → Obj
  | .formatted p => p.details
  | .raw _ => []

/-- Whether an edit call succeeded. -/
def editSucceeded : EditResult → Bool
  | .success _ _ _ => true
  | .failure _ => false

/-- The `data` object inside a confirmation result (empty when absent). -/
def confirmData (result : Obj) : Obj :=
  match lookupKey result "data" with
  | some (.vObj d) => d
  | _ => []

/-- The store returned by a successful `createActionPreview` call (the
input store when the call threw). -/
def createdStore (store : Store) (actionType : String) (actionData : Obj)
    (nowMs : Int) (rand : String) : Store :=
  match createActionPreview store actionType actionData nowMs rand with
  | .ok (_, store') => store'
  | .error _ => store

/-- The formatted preview returned by `createActionPreview` (`none` when
the call threw). -/
def createdPreview (store : Store) (actionType : String) (actionData : Obj)
    (nowMs : Int) (rand : String) : Option FormattedPreview :=
  match createActionPreview store actionType actionData nowMs rand with
  | .ok (fp, _) => some fp
  | .error _ => none

/-! ### Shared concrete sample inputs -/

/-- Raw data for a sample email action, including a sensitive key
(`authToken`) that is not in the display allowlist. -/
def sampleEmailData : Obj :=
  [("recipientName", .vStr "Jane Doe"),
   ("subject", .vStr "Hi"),
   ("body", .vStr "Test"),
   ("ccRecipients", .vList [.vStr "Bob"]),
   ("authToken", .vStr "secret-token")]

/-- The `send_email` entry of `CONFIRMATION_CONFIG`, named for reuse in
concrete statements. -/
def sampleEmailConfig : ActionConfig :=
  { title := "📧 Email Preview"
    requiresConfirmation := true
    editableFields := ["recipientName", "subject", "body", "ccRecipients"]
    displayFields := ["recipientName", "subject", "body", "ccRecipients"] }

/-- The `send_teams_message` entry of `CONFIRMATION_CONFIG`. -/
def sampleTeamsConfig : ActionConfig :=
  { title := "💬 Teams Message Preview"
    requiresConfirmation := true
    editableFields := ["recipientName", "message"]
    displayFields := ["recipientName", "message"] }

/-- The `create_calendar_event` entry of `CONFIRMATION_CONFIG`. -/
def sampleCalendarConfig : ActionConfig :=
  { title := "📅 Meeting Preview"
    requiresConfirmation := true
    editableFields := ["subject", "attendeeNames", "startTime", "endTime"]
    displayFields := ["subject", "attendeeNames", "startTime", "endTime", "isTeamsMeeting"] }

/-- The sample email action as stored by `createActionPreview` at time 0
with random suffix `r1`. -/
def samplePA : PendingAction :=
  newPendingAction "send_email" sampleEmailConfig sampleEmailData 0 "r1"

/-- The sample email action stored under the short id `a1`. -/
def sampleStoredPA : PendingAction := { samplePA with actionId := "a1" }

/-- A store holding just the sample email action under id `a1`. -/
def sampleStore : Store := [("a1", sampleStoredPA)]

/-- The mutated record produced by a successful `editPendingAction` call:
the overlay is (re)built by `Object.assign` on top of the existing overlay,
or of a copy of `originalData` on the first edit. -/
def editedAction (action : PendingAction) (edits : Obj) (nowMs : Int) : PendingAction :=
  { action with
    editedData := some (objAssign (action.editedData.getD action.originalData) edits)
    status := "edited"
    editedAt := some nowMs }

/-! ### Association-list lemmas -/

theorem lookupKey_putKey_self {α : Type} (l : List (String × α)) (k : String) (v : α) :
    lookupKey (putKey l k v) k = some v := by
  induction l with
  | nil => simp [putKey, lookupKey]
  | cons p rest ih =>
      by_cases h : p.fst == k
      · simp [putKey, h, lookupKey]
      · simp [putKey, h, lookupKey, ih]

theorem lookupKey_putKey_ne {α : Type} (l : List (String × α)) (k k' : String) (v : α)
    (h : k' ≠ k) : lookupKey (putKey l k v) k' = lookupKey l k' := by
  have hk : (k == k') = false := by
    simp only [beq_eq_false_iff_ne]
    exact fun hkk => h hkk.symm
  induction l with
  | nil => simp [putKey, lookupKey, hk]
  | cons p rest ih =>
      by_cases hp : p.fst == k
      · have hp' : p.fst = k := by simpa using hp
        have hpk : (p.fst == k') = false := by
          simp only [beq_eq_false_iff_ne, hp']
          exact fun hkk => h hkk.symm
        simp [putKey, hp, lookupKey, hk, hpk]
      · simp [putKey, hp, lookupKey, ih]

theorem lookupKey_dropKey_self {α : Type} (l : List (String × α)) (k : String) :
    lookupKey (dropKey l k) k = none := by
  induction l with
  | nil => simp [dropKey, lookupKey]
  | cons p rest ih =>
      by_cases hp : p.fst == k
      · simpa [dropKey, hp] using ih
      · simpa [dropKey, lookupKey, hp] using ih

theorem hasKey_false_iff {α : Type} (l : List (String × α)) (k : String) :
    hasKey l k = false ↔ lookupKey l k = none := by
  unfold hasKey
  cases h : lookupKey l k <;> simp [h]

theorem mem_keysOf_putKey {α : Type} (l : List (String × α)) (k k' : String) (v : α) :
    k' ∈ keysOf (putKey l k v) ↔ k' ∈ keysOf l ∨ k' = k := by
  simp only [keysOf]
  induction l with
  | nil => simp [putKey]
  | cons p rest ih =>
      simp only [putKey]
      by_cases hp : (p.fst == k) = true
      · have hp' : p.fst = k := by simpa using hp
        rw [if_pos hp]
        simp only [List.map_cons, List.mem_cons, hp']
        tauto
      · rw [if_neg hp]
        simp only [List.map_cons, List.mem_cons]
        rw [ih]
        tauto

theorem mem_keysOf_filterFold (data : Obj) (fields : List String) (acc : Obj) (k : String) :
    k ∈ keysOf (fields.foldl
      (fun filtered field =>
        if hasKey data field then putKey filtered field (getProp data field) else filtered)
      acc) ↔
    k ∈ keysOf acc ∨ (k ∈ fields ∧ hasKey data k = true) := by
  induction fields generalizing acc with
  | nil => simp
  | cons f rest ih =>
      simp only [List.foldl_cons]
      rw [ih]
      simp only [List.mem_cons]
      by_cases hf : hasKey data f = true
      · rw [if_pos hf, mem_keysOf_putKey]
        constructor
        · rintro (⟨h1 | h1⟩ | ⟨h1, h2⟩)
          · exact Or.inl h1
          · exact Or.inr ⟨Or.inl h1, by rw [h1]; exact hf⟩
          · exact Or.inr ⟨Or.inr h1, h2⟩
        · rintro (h1 | ⟨h1 | h1, h2⟩)
          · exact Or.inl (Or.inl h1)
          · exact Or.inl (Or.inr h1)
          · exact Or.inr ⟨h1, h2⟩
      · have hf' : hasKey data f = false := by simpa using hf
        rw [if_neg hf]
        constructor
        · rintro (h1 | ⟨h1, h2⟩)
          · exact Or.inl h1
          · exact Or.inr ⟨Or.inr h1, h2⟩
        · rintro (h1 | ⟨h1 | h1, h2⟩)
          · exact Or.inl h1
          · rw [h1] at h2
            rw [h2] at hf'
            cases hf'
          · exact Or.inr ⟨h1, h2⟩

/-- Key-set characterisation of the allowlist filter: the filtered object
holds exactly the allowlisted fields that are present in the input. -/
theorem mem_keysOf_filterActionData (data : Obj) (fields : List String) (k : String) :
    k ∈ keysOf (filterActionData data fields) ↔ (k ∈ fields ∧ hasKey data k = true) := by
  unfold filterActionData
  rw [mem_keysOf_filterFold]
  simp [keysOf]

/-! ### C2 — allowlist filtering of the preview data -/

/-- C2: for every registered action kind and every raw data record, the
preview stored by `createActionPreview` carries filtered data whose keys
are exactly the kind's `displayFields` that are present in the raw data —
any other raw key (a token, say) is absent from it. -/
theorem preview_allowlist_filtering
    (store : Store) (actionType : String) (config : ActionConfig) (raw : Obj)
    (nowMs : Int) (rand : String) (k : String)
    (h : CONFIRMATION_CONFIG actionType = some config) :
    getPendingAction (createdStore store actionType raw nowMs rand) (generateActionId nowMs rand)
        = some (newPendingAction actionType config raw nowMs rand) ∧
    (k ∈ keysOf (newPendingAction actionType config raw nowMs rand).data ↔
      (k ∈ config.displayFields ∧ hasKey raw k = true)) := by
  constructor
  · unfold createdStore createActionPreview
    rw [h]
    exact lookupKey_putKey_self store _ _
  · exact mem_keysOf_filterActionData raw config.displayFields k

theorem preview_allowlist_filtering_witness :
    CONFIRMATION_CONFIG "send_email" = some sampleEmailConfig ∧
    ("authToken" ∈ keysOf (newPendingAction "send_email" sampleEmailConfig
        sampleEmailData 0 "r1").data ↔
      ("authToken" ∈ sampleEmailConfig.displayFields ∧
        hasKey sampleEmailData "authToken" = true)) ∧
    ("subject" ∈ keysOf (newPendingAction "send_email" sampleEmailConfig
        sampleEmailData 0 "r1").data ↔
      ("subject" ∈ sampleEmailConfig.displayFields ∧
        hasKey sampleEmailData "subject" = true)) :=
  ⟨rfl,
   (preview_allowlist_filtering [] "send_email" sampleEmailConfig sampleEmailData
      0 "r1" "authToken" rfl).2,
   (preview_allowlist_filtering [] "send_email" sampleEmailConfig sampleEmailData
      0 "r1" "subject" rfl).2⟩

/-! ### C7 — createActionPreview validates the kind and stores a pending record -/

theorem config_some_cases (t : String) (config : ActionConfig)
    (h : CONFIRMATION_CONFIG t = some config) :
    t = "send_email" ∨ t = "send_teams_message" ∨ t = "create_calendar_event" := by
  unfold CONFIRMATION_CONFIG at h
  by_cases h1 : (t == "send_email") = true
  · exact Or.inl (by simpa using h1)
  · rw [if_neg h1] at h
    by_cases h2 : (t == "send_teams_message") = true
    · exact Or.inr (Or.inl (by simpa using h2))
    · rw [if_neg h2] at h
      by_cases h3 : (t == "create_calendar_event") = true
      · exact Or.inr (Or.inr (by simpa using h3))
      · rw [if_neg h3] at h
        cases h

theorem formatPreviewForDisplay_of_config (pa : PendingAction) (config : ActionConfig)
    (h : CONFIRMATION_CONFIG pa.actionType = some config) :
    isFormatted (formatPreviewForDisplay pa) = true ∧
    formattedActionId (formatPreviewForDisplay pa) = pa.actionId := by
  rcases config_some_cases _ _ h with h1 | h1 | h1 <;>
    simp [formatPreviewForDisplay, h1, isFormatted, formattedActionId]

/-- C7: `createActionPreview` throws `Unknown action type` for an
unregistered kind; for a registered kind it stores a pending action with
`status` `pending`, `originalData` equal to the raw data unmodified and no
`editedData`, and returns a kind-specific formatted preview carrying the
newly generated id. -/
theorem createActionPreview_spec
    (store : Store) (actionType : String) (config : ActionConfig) (raw : Obj)
    (nowMs : Int) (rand : String) :
    (CONFIRMATION_CONFIG actionType = none →
      createActionPreview store actionType raw nowMs rand
        = Except.error ("Unknown action type: " ++ actionType)) ∧
    (CONFIRMATION_CONFIG actionType = some config →
      createdPreview store actionType raw nowMs rand
        = some (formatPreviewForDisplay (newPendingAction actionType config raw nowMs rand)) ∧
      isFormatted (formatPreviewForDisplay (newPendingAction actionType config raw nowMs rand))
        = true ∧
      formattedActionId (formatPreviewForDisplay (newPendingAction actionType config raw nowMs rand))
        = generateActionId nowMs rand ∧
      getPendingAction (createdStore store actionType raw nowMs rand) (generateActionId nowMs rand)
        = some (newPendingAction actionType config raw nowMs rand) ∧
      (newPendingAction actionType config raw nowMs rand).status = "pending" ∧
      (newPendingAction actionType config raw nowMs rand).originalData = raw ∧
      (newPendingAction actionType config raw nowMs rand).editedData = none ∧
      (newPendingAction actionType config raw nowMs rand).actionId
        = generateActionId nowMs rand) := by
  constructor
  · intro h
    unfold createActionPreview
    rw [h]
  · intro h
    refine ⟨?_, ?_, ?_, ?_, rfl, rfl, rfl, rfl⟩
    · unfold createdPreview createActionPreview
      rw [h]
    · exact (formatPreviewForDisplay_of_config _ config h).1
    · exact (formatPreviewForDisplay_of_config _ config h).2
    · unfold createdStore createActionPreview
      rw [h]
      exact lookupKey_putKey_self store _ _

theorem createActionPreview_spec_witness :
    (createActionPreview [] "delete_everything" sampleEmailData 0 "r1"
        = Except.error ("Unknown action type: " ++ "delete_everything")) ∧
    formattedActionId (formatPreviewForDisplay samplePA) = generateActionId 0 "r1" ∧
    samplePA.status = "pending" ∧
    samplePA.originalData = sampleEmailData ∧
    samplePA.editedData = none :=
  have h := (createActionPreview_spec [] "send_email" sampleEmailConfig
    sampleEmailData 0 "r1").2 rfl
  ⟨(createActionPreview_spec [] "delete_everything" sampleEmailConfig
      sampleEmailData 0 "r1").1 rfl,
   h.2.2.1, h.2.2.2.2.1, h.2.2.2.2.2.1, h.2.2.2.2.2.2.1⟩

/-! ### Branch lemmas for confirmAction and editPendingAction -/

theorem confirmAction_notFound (store : Store) (actionId : String) (uc : Obj) (nowMs : Int)
    (h : getPendingAction store actionId = none) :
    confirmAction store actionId uc nowMs =
      ([("success", .vBool false),
        ("error", .vStr "Action not found or already processed")], store) := by
  simp only [confirmAction, h]

theorem confirmAction_confirms (store : Store) (actionId : String) (action : PendingAction)
    (uc : Obj) (nowMs : Int) (h : getPendingAction store actionId = some action)
    (hne : lookupKey uc "confirmed" ≠ some (JSValue.vBool false)) :
    confirmAction store actionId uc nowMs =
      ([("success", .vBool true),
        ("status", .vStr "confirmed"),
        ("actionId", .vStr actionId),
        ("actionType", .vStr action.actionType),
        ("data", .vObj (action.editedData.getD action.originalData))],
       putKey store actionId
         { action with status := "confirmed", confirmedAt := some nowMs }) := by
  simp only [confirmAction, h]

theorem confirmAction_cancels (store : Store) (actionId : String) (action : PendingAction)
    (nowMs : Int) (h : getPendingAction store actionId = some action) :
    confirmAction store actionId [("confirmed", .vBool false)] nowMs =
      ([("success", .vBool true),
        ("status", .vStr "cancelled"),
        ("message", .vStr "Action cancelled by user")],
       dropKey store actionId) := by
  simp only [confirmAction, h]
  rfl

theorem editPendingAction_notFound (store : Store) (actionId : String) (edits : Obj)
    (nowMs : Int) (h : getPendingAction store actionId = none) :
    editPendingAction store actionId edits nowMs = (.failure "Action not found", store) := by
  simp only [editPendingAction, h]

theorem editPendingAction_rejects (store : Store) (actionId : String) (action : PendingAction)
    (config : ActionConfig) (edits : Obj) (offending : String × JSValue) (nowMs : Int)
    (h : getPendingAction store actionId = some action)
    (hcfg : CONFIRMATION_CONFIG action.actionType = some config)
    (hbad : edits.find? (fun p => !(config.editableFields.contains p.fst)) = some offending) :
    editPendingAction store actionId edits nowMs =
      (.failure ("Field \"" ++ offending.fst ++ "\" cannot be edited for this action"),
       store) := by
  simp only [editPendingAction, h, hcfg, hbad]

theorem editPendingAction_applies (store : Store) (actionId : String) (action : PendingAction)
    (config : ActionConfig) (edits : Obj) (nowMs : Int)
    (h : getPendingAction store actionId = some action)
    (hcfg : CONFIRMATION_CONFIG action.actionType = some config)
    (hok : edits.find? (fun p => !(config.editableFields.contains p.fst)) = none) :
    editPendingAction store actionId edits nowMs =
      (.success actionId edits
         (formatPreviewForDisplay
           { editedAction action edits nowMs with
             data := filterActionData
               (objAssign (action.editedData.getD action.originalData) edits)
               config.displayFields }),
       putKey store actionId (editedAction action edits nowMs)) := by
  simp only [editPendingAction, h, hcfg, hok]
  rfl

/-! ### C10 — only a strict boolean false cancels -/

/-- C10: `confirmAction` cancels only when the confirmation object carries
the exact boolean `false` under `confirmed`; an empty object (the default
for an omitted argument), an `undefined` value, or any other non-`false`
value confirms the action and returns its data — there is no error path for
a malformed confirmation. -/
theorem confirm_flag_semantics (store : Store) (actionId : String) (action : PendingAction)
    (uc : Obj) (nowMs : Int)
    (h : getPendingAction store actionId = some action)
    (hne : lookupKey uc "confirmed" ≠ some (JSValue.vBool false)) :
    lookupKey (confirmAction store actionId uc nowMs).1 "success" = some (.vBool true) ∧
    lookupKey (confirmAction store actionId uc nowMs).1 "status" = some (.vStr "confirmed") ∧
    lookupKey (confirmAction store actionId uc nowMs).1 "data"
      = some (.vObj (action.editedData.getD action.originalData)) ∧
    lookupKey (confirmAction store actionId [("confirmed", .vBool false)] nowMs).1 "status"
      = some (.vStr "cancelled") := by
  rw [confirmAction_confirms store actionId action uc nowMs h hne,
      confirmAction_cancels store actionId action nowMs h]
  exact ⟨rfl, rfl, rfl, rfl⟩

theorem confirm_flag_semantics_witness :
    getPendingAction sampleStore "a1" = some sampleStoredPA ∧
    lookupKey (confirmAction sampleStore "a1" [] 5).1 "status" = some (.vStr "confirmed") ∧
    lookupKey (confirmAction sampleStore "a1" [("confirmed", .vUndefined)] 5).1 "status"
      = some (.vStr "confirmed") ∧
    lookupKey (confirmAction sampleStore "a1" [("confirmed", .vStr "yes")] 5).1 "status"
      = some (.vStr "confirmed") ∧
    lookupKey (confirmAction sampleStore "a1" [("confirmed", .vBool false)] 5).1 "status"
      = some (.vStr "cancelled") :=
  ⟨rfl,
   (confirm_flag_semantics sampleStore "a1" sampleStoredPA [] 5 rfl
      (by simp [lookupKey])).2.1,
   (confirm_flag_semantics sampleStore "a1" sampleStoredPA [("confirmed", .vUndefined)] 5 rfl
      (by simp [lookupKey])).2.1,
   (confirm_flag_semantics sampleStore "a1" sampleStoredPA [("confirmed", .vStr "yes")] 5 rfl
      (by simp [lookupKey])).2.1,
   (confirm_flag_semantics sampleStore "a1" sampleStoredPA [] 5 rfl
      (by simp [lookupKey])).2.2.2⟩

/-! ### C6 — cancel removes the entry and later calls report not found -/

/-- C6: cancelling a stored action (a confirmation carrying `confirmed:
false`) succeeds and removes the entry; afterwards a second cancel or any
confirm on the same id returns the `Action not found or already processed`
error instead of succeeding twice, and leaves the store unchanged. -/
theorem cancel_terminal_removal (store : Store) (actionId : String) (action : PendingAction)
    (uc : Obj) (nowMs now2 : Int)
    (h : getPendingAction store actionId = some action) :
    lookupKey (confirmAction store actionId [("confirmed", .vBool false)] nowMs).1 "success"
      = some (.vBool true) ∧
    lookupKey (confirmAction store actionId [("confirmed", .vBool false)] nowMs).1 "status"
      = some (.vStr "cancelled") ∧
    getPendingAction (confirmAction store actionId [("confirmed", .vBool false)] nowMs).2 actionId
      = none ∧
    (confirmAction (confirmAction store actionId [("confirmed", .vBool false)] nowMs).2
        actionId uc now2).1
      = [("success", .vBool false),
         ("error", .vStr "Action not found or already processed")] ∧
    (confirmAction (confirmAction store actionId [("confirmed", .vBool false)] nowMs).2
        actionId uc now2).2
      = (confirmAction store actionId [("confirmed", .vBool false)] nowMs).2 := by
  rw [confirmAction_cancels store actionId action nowMs h]
  have hdel : getPendingAction (dropKey store actionId) actionId = none :=
    lookupKey_dropKey_self store actionId
  rw [show ((([("success", JSValue.vBool true), ("status", JSValue.vStr "cancelled"),
      ("message", JSValue.vStr "Action cancelled by user")], dropKey store actionId) :
        Obj × Store)).2 = dropKey store actionId from rfl,
    confirmAction_notFound (dropKey store actionId) actionId uc now2 hdel]
  exact ⟨rfl, rfl, hdel, rfl, rfl⟩

theorem cancel_terminal_removal_witness :
    getPendingAction sampleStore "a1" = some sampleStoredPA ∧
    lookupKey (confirmAction sampleStore "a1" [("confirmed", .vBool false)] 5).1 "success"
      = some (.vBool true) ∧
    getPendingAction (confirmAction sampleStore "a1" [("confirmed", .vBool false)] 5).2 "a1"
      = none ∧
    (confirmAction (confirmAction sampleStore "a1" [("confirmed", .vBool false)] 5).2
        "a1" [] 6).1
      = [("success", .vBool false),
         ("error", .vStr "Action not found or already processed")] ∧
    (confirmAction (confirmAction sampleStore "a1" [("confirmed", .vBool false)] 5).2
        "a1" [("confirmed", .vBool false)] 6).1
      = [("success", .vBool false),
         ("error", .vStr "Action not found or already processed")] :=
  have h6 := cancel_terminal_removal sampleStore "a1" sampleStoredPA [] 5 6 rfl
  have h6c := cancel_terminal_removal sampleStore "a1" sampleStoredPA
    [("confirmed", .vBool false)] 5 6 rfl
  ⟨rfl, h6.1, h6.2.2.1, h6.2.2.2.1, h6c.2.2.2.1⟩

/-! ### C5 — what the confirmation result actually carries -/

/-- C5 counterexample: confirming a stored pending action succeeds, but the
result object's keys are exactly `success`, `status`, `actionId`,
`actionType` and `data` — it carries no `cachedLookupData` entry at all, so
the claim that `confirm` returns the cached lookup data attached to the
pending action is false at this input (the module never attaches or
returns cached lookup data). -/
theorem confirm_payload_counterexample :
    sampleStoredPA.status = "pending" ∧
    lookupKey (confirmAction sampleStore "a1" [] 5).1 "success" = some (.vBool true) ∧
    keysOf (confirmAction sampleStore "a1" [] 5).1
      = ["success", "status", "actionId", "actionType", "data"] ∧
    lookupKey (confirmAction sampleStore "a1" [] 5).1 "cachedLookupData" = none :=
  ⟨rfl, rfl, rfl, rfl⟩

/-- C5 amended: confirming a stored action returns a success result that
carries the action's kind (`actionType`) and the effective data
(`editedData` if present, else `originalData`), but no `cachedLookupData`
key — callers that need cached lookup data read it from the store entry
that `confirmAction` leaves behind. -/
theorem confirm_payload_contents (store : Store) (actionId : String) (action : PendingAction)
    (nowMs : Int) (h : getPendingAction store actionId = some action) :
    lookupKey (confirmAction store actionId [] nowMs).1 "success" = some (.vBool true) ∧
    lookupKey (confirmAction store actionId [] nowMs).1 "actionType"
      = some (.vStr action.actionType) ∧
    lookupKey (confirmAction store actionId [] nowMs).1 "data"
      = some (.vObj (action.editedData.getD action.originalData)) ∧
    lookupKey (confirmAction store actionId [] nowMs).1 "cachedLookupData" = none := by
  rw [confirmAction_confirms store actionId action [] nowMs h (by simp [lookupKey])]
  exact ⟨rfl, rfl, rfl, rfl⟩

theorem confirm_payload_contents_witness :
    getPendingAction sampleStore "a1" = some sampleStoredPA ∧
    lookupKey (confirmAction sampleStore "a1" [] 5).1 "actionType"
      = some (.vStr sampleStoredPA.actionType) ∧
    lookupKey (confirmAction sampleStore "a1" [] 5).1 "data"
      = some (.vObj (sampleStoredPA.editedData.getD sampleStoredPA.originalData)) :=
  have h5 := confirm_payload_contents sampleStore "a1" sampleStoredPA 5 rfl
  ⟨rfl, h5.2.1, h5.2.2.1⟩

/-! ### C1 — confirm does not remove the entry -/

/-- C1 counterexample: for a stored action with status `pending`, a
successful `confirmAction` leaves the entry in the store, and a subsequent
`editPendingAction` and a second `confirmAction` on the same id both
succeed instead of failing with the not-found error — refuting the claim
that confirmation removes the entry and later calls fail. -/
theorem confirm_terminal_removal_counterexample :
    sampleStoredPA.status = "pending" ∧
    lookupKey (confirmAction sampleStore "a1" [] 5).1 "success" = some (.vBool true) ∧
    (getPendingAction (confirmAction sampleStore "a1" [] 5).2 "a1").isSome = true ∧
    editSucceeded (editPendingAction (confirmAction sampleStore "a1" [] 5).2 "a1"
        [("subject", .vStr "changed")] 6).1 = true ∧
    lookupKey (confirmAction (confirmAction sampleStore "a1" [] 5).2 "a1" [] 7).1 "success"
      = some (.vBool true) :=
  ⟨rfl, rfl, rfl, rfl, rfl⟩

theorem find?_nonEditable_singleton (config : ActionConfig) (f : String) (v : JSValue)
    (hf : config.editableFields.contains f = true) :
    List.find? (fun p => !(config.editableFields.contains p.fst)) [(f, v)] = none := by
  have hf2 : f ∈ config.editableFields := by simpa using hf
  simp [List.find?, hf2]

/-- C1 amended: after `confirmAction` succeeds on a stored action, the
entry is NOT removed — it stays in the store with status `confirmed` and a
`confirmedAt` timestamp, and a subsequent edit of an editable field or a
second confirm on the same id succeeds against the retained record.  Only
the cancel path (`confirmed: false`) removes the entry, after which edits
fail with `Action not found`. -/
theorem confirm_retains_entry (store : Store) (actionId : String) (action : PendingAction)
    (config : ActionConfig) (f : String) (v : JSValue) (nowMs n2 n3 n4 n5 : Int)
    (h : getPendingAction store actionId = some action)
    (hcfg : CONFIRMATION_CONFIG action.actionType = some config)
    (hf : config.editableFields.contains f = true) :
    lookupKey (confirmAction store actionId [] nowMs).1 "success" = some (.vBool true) ∧
    getPendingAction (confirmAction store actionId [] nowMs).2 actionId
      = some { action with status := "confirmed", confirmedAt := some nowMs } ∧
    editSucceeded (editPendingAction (confirmAction store actionId [] nowMs).2 actionId
        [(f, v)] n2).1 = true ∧
    lookupKey (confirmAction (confirmAction store actionId [] nowMs).2 actionId [] n3).1
        "success" = some (.vBool true) ∧
    getPendingAction (confirmAction store actionId [("confirmed", .vBool false)] n4).2 actionId
      = none ∧
    (editPendingAction (confirmAction store actionId [("confirmed", .vBool false)] n4).2
        actionId [(f, v)] n5).1 = EditResult.failure "Action not found" := by
  have hconf := confirmAction_confirms store actionId action [] nowMs h (by simp [lookupKey])
  have hget1 : getPendingAction (confirmAction store actionId [] nowMs).2 actionId
      = some { action with status := "confirmed", confirmedAt := some nowMs } := by
    rw [hconf]
    exact lookupKey_putKey_self store actionId _
  have hcfg1 : CONFIRMATION_CONFIG
      ({ action with status := "confirmed", confirmedAt := some nowMs } : PendingAction).actionType
      = some config := hcfg
  have hok := find?_nonEditable_singleton config f v hf
  have hedit := editPendingAction_applies (confirmAction store actionId [] nowMs).2 actionId
    { action with status := "confirmed", confirmedAt := some nowMs } config [(f, v)] n2
    hget1 hcfg1 hok
  have hcancel := confirmAction_cancels store actionId action n4 h
  have hdel : getPendingAction (confirmAction store actionId [("confirmed", .vBool false)] n4).2
      actionId = none := by
    rw [hcancel]
    exact lookupKey_dropKey_self store actionId
  refine ⟨?_, hget1, ?_, ?_, hdel, ?_⟩
  · rw [hconf]
    rfl
  · rw [hedit]
    rfl
  · rw [confirmAction_confirms (confirmAction store actionId [] nowMs).2 actionId
      { action with status := "confirmed", confirmedAt := some nowMs } [] n3 hget1
      (by simp [lookupKey])]
    rfl
  · rw [editPendingAction_notFound (confirmAction store actionId [("confirmed", .vBool false)] n4).2
      actionId [(f, v)] n5 hdel]


theorem confirm_retains_entry_witness :
    getPendingAction sampleStore "a1" = some sampleStoredPA ∧
    CONFIRMATION_CONFIG sampleStoredPA.actionType = some sampleEmailConfig ∧
    sampleEmailConfig.editableFields.contains "subject" = true ∧
    getPendingAction (confirmAction sampleStore "a1" [] 5).2 "a1"
      = some { sampleStoredPA with status := "confirmed", confirmedAt := some 5 } ∧
    editSucceeded (editPendingAction (confirmAction sampleStore "a1" [] 5).2 "a1"
        [("subject", .vStr "x")] 6).1 = true ∧
    (editPendingAction (confirmAction sampleStore "a1" [("confirmed", .vBool false)] 7).2
        "a1" [("subject", .vStr "x")] 8).1 = EditResult.failure "Action not found" :=
  have h1 := confirm_retains_entry sampleStore "a1" sampleStoredPA sampleEmailConfig
    "subject" (.vStr "x") 5 6 9 7 8 rfl rfl rfl
  ⟨rfl, rfl, rfl, h1.2.1, h1.2.2.1, h1.2.2.2.2.2⟩

/-! ### C3 — rejected edits are all-or-nothing -/

/-- C3: when any key of the requested edits lies outside the kind's
`editableFields`, `editPendingAction` fails with the `Field "..." cannot be
edited` error naming the (first) offending field, and the store is exactly
what it was before the call, so a subsequent confirm behaves identically to
one made before the failed edit. -/
theorem edit_rejection_atomic (store : Store) (actionId : String) (action : PendingAction)
    (config : ActionConfig) (edits : Obj) (f : String) (v0 : JSValue) (uc : Obj)
    (nowMs n2 : Int)
    (h : getPendingAction store actionId = some action)
    (hcfg : CONFIRMATION_CONFIG action.actionType = some config)
    (hfind : edits.find? (fun p => !(config.editableFields.contains p.fst)) = some (f, v0)) :
    f ∈ keysOf edits ∧
    config.editableFields.contains f = false ∧
    editPendingAction store actionId edits nowMs
      = (.failure ("Field \"" ++ f ++ "\" cannot be edited for this action"), store) ∧
    confirmAction (editPendingAction store actionId edits nowMs).2 actionId uc n2
      = confirmAction store actionId uc n2 := by
  have hmem : (f, v0) ∈ edits := List.mem_of_find?_eq_some hfind
  have hp := List.find?_some hfind
  refine ⟨?_, ?_, ?_, ?_⟩
  · exact List.mem_map_of_mem Prod.fst hmem
  · simpa using hp
  · exact editPendingAction_rejects store actionId action config edits (f, v0) nowMs h hcfg hfind
  · rw [editPendingAction_rejects store actionId action config edits (f, v0) nowMs h hcfg hfind]

theorem edit_rejection_atomic_witness :
    getPendingAction sampleStore "a1" = some sampleStoredPA ∧
    (([("subject", JSValue.vStr "ok"), ("recipientEmailAddress", JSValue.vStr "hack")] :
        Obj).find? (fun p => !(sampleEmailConfig.editableFields.contains p.fst))
      = some ("recipientEmailAddress", JSValue.vStr "hack")) ∧
    editPendingAction sampleStore "a1"
        [("subject", JSValue.vStr "ok"), ("recipientEmailAddress", JSValue.vStr "hack")] 5
      = (.failure "Field \"recipientEmailAddress\" cannot be edited for this action",
         sampleStore) ∧
    confirmAction (editPendingAction sampleStore "a1"
        [("subject", JSValue.vStr "ok"), ("recipientEmailAddress", JSValue.vStr "hack")] 5).2
        "a1" [] 6
      = confirmAction sampleStore "a1" [] 6 :=
  have h3 := edit_rejection_atomic sampleStore "a1" sampleStoredPA sampleEmailConfig
    [("subject", JSValue.vStr "ok"), ("recipientEmailAddress", JSValue.vStr "hack")]
    "recipientEmailAddress" (JSValue.vStr "hack") [] 5 6 rfl rfl rfl
  ⟨rfl, rfl, h3.2.2.1, h3.2.2.2⟩

/-! ### C4 — edit overlays on a full copy of the original data -/

/-- C4: for a stored action not yet edited, a successful
`editPendingAction` with `{f: v}` makes the effective data handed back by a
later confirm carry `v` at `f` while every other field keeps its
`originalData` value (the first edit copies `originalData` in full before
overlaying), and a further edit of the same field overwrites the previous
overlay value. -/
theorem edit_overlay_correct (store : Store) (actionId : String) (action : PendingAction)
    (config : ActionConfig) (f g : String) (v v2 : JSValue) (nowMs n2 n3 n4 : Int)
    (h : getPendingAction store actionId = some action)
    (hcfg : CONFIRMATION_CONFIG action.actionType = some config)
    (hfirst : action.editedData = none)
    (hf : config.editableFields.contains f = true)
    (hg : g ≠ f) :
    editSucceeded (editPendingAction store actionId [(f, v)] nowMs).1 = true ∧
    lookupKey (confirmData
        (confirmAction (editPendingAction store actionId [(f, v)] nowMs).2 actionId [] n2).1) f
      = some v ∧
    lookupKey (confirmData
        (confirmAction (editPendingAction store actionId [(f, v)] nowMs).2 actionId [] n2).1) g
      = lookupKey action.originalData g ∧
    lookupKey (confirmData
        (confirmAction
          (editPendingAction (editPendingAction store actionId [(f, v)] nowMs).2 actionId
            [(f, v2)] n3).2 actionId [] n4).1) f
      = some v2 := by
  have hok1 := find?_nonEditable_singleton config f v hf
  have hok2 := find?_nonEditable_singleton config f v2 hf
  have hedit1 := editPendingAction_applies store actionId action config [(f, v)] nowMs h hcfg hok1
  have hget1 : getPendingAction (editPendingAction store actionId [(f, v)] nowMs).2 actionId
      = some (editedAction action [(f, v)] nowMs) := by
    rw [hedit1]
    exact lookupKey_putKey_self store actionId _
  have hcfg1 : CONFIRMATION_CONFIG (editedAction action [(f, v)] nowMs).actionType
      = some config := hcfg
  have hconf1 := confirmAction_confirms (editPendingAction store actionId [(f, v)] nowMs).2
    actionId (editedAction action [(f, v)] nowMs) [] n2 hget1 (by simp [lookupKey])
  have hedit2 := editPendingAction_applies (editPendingAction store actionId [(f, v)] nowMs).2
    actionId (editedAction action [(f, v)] nowMs) config [(f, v2)] n3 hget1 hcfg1 hok2
  have hget2 : getPendingAction
      (editPendingAction (editPendingAction store actionId [(f, v)] nowMs).2 actionId
        [(f, v2)] n3).2 actionId
      = some (editedAction (editedAction action [(f, v)] nowMs) [(f, v2)] n3) := by
    rw [hedit2]
    exact lookupKey_putKey_self _ actionId _
  have hconf2 := confirmAction_confirms
    (editPendingAction (editPendingAction store actionId [(f, v)] nowMs).2 actionId
      [(f, v2)] n3).2
    actionId (editedAction (editedAction action [(f, v)] nowMs) [(f, v2)] n3) [] n4 hget2
    (by simp [lookupKey])
  have hbase : action.editedData.getD action.originalData = action.originalData := by
    rw [hfirst]
    rfl
  refine ⟨?_, ?_, ?_, ?_⟩
  · rw [hedit1]
    rfl
  · rw [hconf1]
    exact lookupKey_putKey_self (action.editedData.getD action.originalData) f v
  · rw [hconf1]
    calc lookupKey (putKey (action.editedData.getD action.originalData) f v) g
        = lookupKey (action.editedData.getD action.originalData) g :=
          lookupKey_putKey_ne (action.editedData.getD action.originalData) f g v hg
      _ = lookupKey action.originalData g := by rw [hbase]
  · rw [hconf2]
    exact lookupKey_putKey_self
      (putKey (action.editedData.getD action.originalData) f v) f v2

theorem edit_overlay_correct_witness :
    getPendingAction sampleStore "a1" = some sampleStoredPA ∧
    sampleStoredPA.editedData = none ∧
    lookupKey (confirmData
        (confirmAction (editPendingAction sampleStore "a1"
          [("subject", JSValue.vStr "Updated Subject")] 5).2 "a1" [] 6).1) "subject"
      = some (JSValue.vStr "Updated Subject") ∧
    lookupKey (confirmData
        (confirmAction (editPendingAction sampleStore "a1"
          [("subject", JSValue.vStr "Updated Subject")] 5).2 "a1" [] 6).1) "body"
      = lookupKey sampleStoredPA.originalData "body" ∧
    lookupKey (confirmData
        (confirmAction
          (editPendingAction (editPendingAction sampleStore "a1"
            [("subject", JSValue.vStr "Updated Subject")] 5).2 "a1"
            [("subject", JSValue.vStr "Final Subject")] 7).2 "a1" [] 8).1) "subject"
      = some (JSValue.vStr "Final Subject") :=
  have h4 := edit_overlay_correct sampleStore "a1" sampleStoredPA sampleEmailConfig
    "subject" "body" (JSValue.vStr "Updated Subject") (JSValue.vStr "Final Subject")
    5 6 7 8 rfl rfl rfl rfl (by simp)
  ⟨rfl, rfl, h4.2.1, h4.2.2.1, h4.2.2.2⟩

/-! ### C8 — the expiry sweep -/

theorem length_filter_add_length_filter_not {α : Type} (l : List α) (p : α → Bool) :
    (l.filter p).length + (l.filter (fun a => !(p a))).length = l.length := by
  induction l with
  | nil => rfl
  | cons a rest ih =>
      cases hpa : p a <;> simp [List.filter_cons, hpa] <;> omega

/-- C8: the sweep removes exactly the entries whose creation time is more
than the hard-coded one hour before now, and returns their count.  An
action created at `T` is removed by a sweep at `T + 1h + ε` and kept,
unchanged, by a sweep at `T + 1h − ε`; the removed count plus the size of
the surviving store equals the original size. -/
theorem sweep_expired_spec (store : Store) (entry : String × PendingAction)
    (T ε nowMs : Int)
    (hmem : entry ∈ store) (hts : entry.2.timestamp = T) (hε : 0 < ε) :
    entry ∉ (cleanupExpiredActions store (T + 60 * 60 * 1000 + ε)).2 ∧
    entry ∈ (cleanupExpiredActions store (T + 60 * 60 * 1000 - ε)).2 ∧
    (cleanupExpiredActions store nowMs).1 + (cleanupExpiredActions store nowMs).2.length
      = store.length ∧
    (entry ∈ (cleanupExpiredActions store nowMs).2 →
      ¬ entry.2.timestamp < nowMs - 60 * 60 * 1000) ∧
    (¬ entry.2.timestamp < nowMs - 60 * 60 * 1000 →
      entry ∈ (cleanupExpiredActions store nowMs).2) := by
  refine ⟨?_, ?_, ?_, ?_, ?_⟩
  · intro hin
    have h2 := (List.mem_filter.mp hin).2
    simp only [Bool.not_eq_true', decide_eq_false_iff_not, hts] at h2
    omega
  · refine List.mem_filter.mpr ⟨hmem, ?_⟩
    simp only [Bool.not_eq_true', decide_eq_false_iff_not, hts]
    omega
  · exact length_filter_add_length_filter_not store _
  · intro hin
    have h2 := (List.mem_filter.mp hin).2
    simpa using h2
  · intro hno
    refine List.mem_filter.mpr ⟨hmem, ?_⟩
    simpa using hno

theorem sweep_expired_spec_witness :
    ("a1", sampleStoredPA) ∈ sampleStore ∧
    sampleStoredPA.timestamp = 0 ∧
    (0 : Int) < 1 ∧
    ("a1", sampleStoredPA) ∉ (cleanupExpiredActions sampleStore (0 + 60 * 60 * 1000 + 1)).2 ∧
    ("a1", sampleStoredPA) ∈ (cleanupExpiredActions sampleStore (0 + 60 * 60 * 1000 - 1)).2 ∧
    (cleanupExpiredActions sampleStore 7).1 + (cleanupExpiredActions sampleStore 7).2.length
      = sampleStore.length :=
  have h8 := sweep_expired_spec sampleStore ("a1", sampleStoredPA) 0 1 7
    (List.mem_singleton.mpr rfl) rfl (by norm_num)
  ⟨List.mem_singleton.mpr rfl, rfl, by norm_num, h8.1, h8.2.1, h8.2.2.1⟩

/-! ### C9 — how missing fields actually render -/

theorem hasKey_iff_mem_keysOf {α : Type} (l : List (String × α)) (k : String) :
    hasKey l k = true ↔ k ∈ keysOf l := by
  induction l with
  | nil => simp [hasKey, lookupKey, keysOf]
  | cons p rest ih =>
      by_cases hp : (p.fst == k) = true
      · have hp' : p.fst = k := by simpa using hp
        simp [hasKey, lookupKey, hp, keysOf, hp']
      · have hp' : ¬ p.fst = k := by simpa using hp
        simp only [hasKey, lookupKey, hp, if_neg, Bool.false_eq_true, not_false_iff,
          keysOf, List.map_cons, List.mem_cons]
        rw [show (lookupKey rest k).isSome = hasKey rest k from rfl, ih]
        simp only [keysOf]
        constructor
        · exact Or.inr
        · rintro (h1 | h1)
          · exact absurd h1.symm hp'
          · exact h1

theorem lookupKey_filterActionData_eq_none (data : Obj) (fields : List String) (k : String)
    (h : ¬ (k ∈ fields ∧ hasKey data k = true)) :
    lookupKey (filterActionData data fields) k = none := by
  rw [← hasKey_false_iff]
  cases hk : hasKey (filterActionData data fields) k
  · rfl
  · exact absurd ((mem_keysOf_filterActionData data fields k).mp
      ((hasKey_iff_mem_keysOf _ k).mp hk)) h

theorem email_details (pa : PendingAction) (h : pa.actionType = "send_email") :
    formattedDetails (formatPreviewForDisplay pa) =
      [("to", jsOr (getProp pa.data "recipientName") (getProp pa.data "recipient")),
       ("subject", getProp pa.data "subject"),
       ("body", getProp pa.data "body"),
       ("cc", renderCc (jsOr (getProp pa.data "cc_recipients")
                             (getProp pa.data "ccRecipients"))),
       ("preview", .vStr ("Email to " ++
          jsToString (jsOr (getProp pa.data "recipientName")
                           (getProp pa.data "recipient"))))] := by
  simp [formatPreviewForDisplay, h, formattedDetails]

theorem teams_details (pa : PendingAction) (h : pa.actionType = "send_teams_message") :
    formattedDetails (formatPreviewForDisplay pa) =
      [("recipient", jsOr (getProp pa.data "recipientName") (.vStr "Unknown recipient")),
       ("message", getProp pa.data "message"),
       ("preview", .vStr ("Teams message to " ++
          jsToString (jsOr (getProp pa.data "recipientName") (.vStr "Unknown"))))] := by
  simp [formatPreviewForDisplay, h, formattedDetails]

theorem meeting_details (pa : PendingAction) (h : pa.actionType = "create_calendar_event") :
    formattedDetails (formatPreviewForDisplay pa) =
      [("subject", getProp pa.data "subject"),
       ("attendees", renderAttendees (getProp pa.data "attendeeNames")),
       ("startTime", jsOr (getProp pa.data "startTime") (getProp pa.data "start")),
       ("endTime", jsOr (getProp pa.data "endTime") (getProp pa.data "end")),
       ("isTeams", jsOr (getProp pa.data "isTeamsMeeting") (.vBool false)),
       ("preview", .vStr ("Meeting: " ++ jsToString (getProp pa.data "subject")))] := by
  simp [formatPreviewForDisplay, h, formattedDetails]

/-- C9 counterexample: a missing optional field does not always render as
the placeholder `"None"`: a Teams-message preview with no `message` renders
`undefined` there, and a meeting preview with no attendees renders
`"No attendees"` — so "every missing optional field renders as `None`" is
false at these inputs. -/
theorem format_placeholder_counterexample :
    (createdPreview [] "send_teams_message" [("recipientName", JSValue.vStr "Bob")] 0 "r2").map
        (fun fp => lookupKey (formattedDetails fp) "message")
      = some (some JSValue.vUndefined) ∧
    JSValue.vUndefined ≠ JSValue.vStr "None" ∧
    (createdPreview [] "create_calendar_event" [("subject", JSValue.vStr "Standup")] 0 "r3").map
        (fun fp => lookupKey (formattedDetails fp) "attendees")
      = some (some (JSValue.vStr "No attendees")) ∧
    JSValue.vStr "No attendees" ≠ JSValue.vStr "None" :=
  ⟨rfl, by simp, rfl, by simp⟩

/-- C9 amended: only the email preview's `cc` line renders a missing (or
empty) value as the placeholder `"None"`; other missing optional fields
render as JS `undefined` (e.g. a missing Teams `message`) or kind-specific
fallbacks (`"Unknown recipient"`, `"No attendees"`, `false`).  The key set
of the details object is nevertheless fixed per kind, independent of which
raw fields are present. -/
theorem format_placeholder_amended (raw : Obj) (nowMs : Int) (rand : String)
    (hcc : hasKey raw "ccRecipients" = false)
    (hmsg : hasKey raw "message" = false) :
    lookupKey (formattedDetails (formatPreviewForDisplay
        (newPendingAction "send_email" sampleEmailConfig raw nowMs rand))) "cc"
      = some (JSValue.vStr "None") ∧
    lookupKey (formattedDetails (formatPreviewForDisplay
        (newPendingAction "send_teams_message" sampleTeamsConfig raw nowMs rand))) "message"
      = some JSValue.vUndefined ∧
    keysOf (formattedDetails (formatPreviewForDisplay
        (newPendingAction "send_email" sampleEmailConfig raw nowMs rand)))
      = ["to", "subject", "body", "cc", "preview"] ∧
    keysOf (formattedDetails (formatPreviewForDisplay
        (newPendingAction "send_teams_message" sampleTeamsConfig raw nowMs rand)))
      = ["recipient", "message", "preview"] ∧
    keysOf (formattedDetails (formatPreviewForDisplay
        (newPendingAction "create_calendar_event" sampleCalendarConfig raw nowMs rand)))
      = ["subject", "attendees", "startTime", "endTime", "isTeams", "preview"] := by
  have hde := email_details (newPendingAction "send_email" sampleEmailConfig raw nowMs rand) rfl
  have hdt := teams_details
    (newPendingAction "send_teams_message" sampleTeamsConfig raw nowMs rand) rfl
  have hdm := meeting_details
    (newPendingAction "create_calendar_event" sampleCalendarConfig raw nowMs rand) rfl
  have h1 : lookupKey (filterActionData raw sampleEmailConfig.displayFields) "cc_recipients"
      = none :=
    lookupKey_filterActionData_eq_none _ _ _ (by simp [sampleEmailConfig])
  have h2 : lookupKey (filterActionData raw sampleEmailConfig.displayFields) "ccRecipients"
      = none :=
    lookupKey_filterActionData_eq_none _ _ _ (by simp [hcc])
  have h3 : lookupKey (filterActionData raw sampleTeamsConfig.displayFields) "message"
      = none :=
    lookupKey_filterActionData_eq_none _ _ _ (by simp [hmsg])
  refine ⟨?_, ?_, ?_, ?_, ?_⟩
  · rw [hde]
    simp [newPendingAction, getProp, h1, h2, jsOr, truthy, renderCc, lookupKey]
  · rw [hdt]
    simp [newPendingAction, getProp, h3, lookupKey]
  · rw [hde]
    rfl
  · rw [hdt]
    rfl
  · rw [hdm]
    rfl

theorem format_placeholder_amended_witness :
    hasKey [("recipientName", JSValue.vStr "Bob")] "ccRecipients" = false ∧
    hasKey [("recipientName", JSValue.vStr "Bob")] "message" = false ∧
    lookupKey (formattedDetails (formatPreviewForDisplay
        (newPendingAction "send_email" sampleEmailConfig
          [("recipientName", JSValue.vStr "Bob")] 0 "r4"))) "cc"
      = some (JSValue.vStr "None") ∧
    lookupKey (formattedDetails (formatPreviewForDisplay
        (newPendingAction "send_teams_message" sampleTeamsConfig
          [("recipientName", JSValue.vStr "Bob")] 0 "r4"))) "message"
      = some JSValue.vUndefined ∧
    keysOf (formattedDetails (formatPreviewForDisplay
        (newPendingAction "send_email" sampleEmailConfig
          [("recipientName", JSValue.vStr "Bob")] 0 "r4")))
      = ["to", "subject", "body", "cc", "preview"] :=
  have h9 := format_placeholder_amended [("recipientName", JSValue.vStr "Bob")] 0 "r4" rfl rfl
  ⟨rfl, rfl, h9.1, h9.2.1, h9.2.2.1⟩
